import Mathlib

/-!
A verification development for `orcanizator.py`, a batch driver around the
ORCA quantum-chemistry program.  The core is `orca_reader`, a single-pass,
line-oriented scanner over the textual report that extracts eleven properties
via section flags and positional token extraction.

Modelling conventions:
* a report file is its list of lines (as read by `readlines`; trailing
  newlines are discarded by `str.split` and cannot occur inside any header
  phrase, so they are irrelevant to every definition below);
* Python dictionaries become insertion-ordered association lists
  (`setProp` updates in place or appends, as `dict.__setitem__` does);
* Python exceptions become `Option` (`none` = the call raised; the caller
  `orcanize` swallows every exception uniformly, so the error payload is
  irrelevant);
* `float(tok)` is modelled as exact parsing of the decimal literal into a
  fraction with a positive power-of-ten denominator (`parseFloat?`); the
  source only ever compares the parsed occupation with zero, i.e. looks at
  the sign of the numerator, where exact and IEEE semantics agree for the
  decimal occupation columns ORCA emits (`inf`/`nan` spellings are not
  modelled);
* the utf-16 encode/decode round trip applied to the search phrases in the
  source is modelled at the code-unit level (`utf16Encode`/`utf16Decode`),
  byte order being the codec's concern.
-/

/-- Accumulator pass of `pySplit`: walk the characters, collecting the
current token in reverse (structural recursion, so that concrete runs
reduce). -/
def splitWsAux : List Char → List Char → List String
  | [], acc => if acc.isEmpty then [] else [String.mk acc.reverse]
  | c :: rest, acc =>
    if c.isWhitespace then
      if acc.isEmpty then splitWsAux rest []
      else String.mk acc.reverse :: splitWsAux rest []
    else splitWsAux rest (c :: acc)

/-- Python `str.split()` with no argument: the maximal whitespace-free runs
of the string, empty pieces discarded (source: `line.split()`). -/
def pySplit (s : String) : List String :=
  splitWsAux s.data []

/-- Occurrence of `pat` inside the character list `l` (helper for the
Python `in` substring test). -/
def subOccurs (pat : List Char) : List Char → Bool
  | [] => pat.isEmpty
  | c :: rest => pat.isPrefixOf (c :: rest) || subOccurs pat rest

/-- Python `phrase in line` substring containment. -/
def containsStr (line phrase : String) : Bool :=
  subOccurs phrase.data line.data

/-- Value of a digit list, most significant first (helper of `parseFloat?`). -/
def digitsVal (ds : List Char) : Nat :=
  ds.foldl (fun a c => a * 10 + (c.toNat - 48)) 0

/-- Result of `float(...)`: an exact fraction `num / den` whose denominator
is a positive power of ten by construction, so that the source's only use
of the value — comparison with zero — is the sign of `num`. -/
structure PyFloat where
  num : Int
  den : Nat
deriving DecidableEq

/-- Exponent part of a Python float literal: an optional sign followed by a
nonempty digit string (helper of `parseFloat?`). -/
def parseExpPart (m : PyFloat) (cs : List Char) : Option PyFloat :=
  match cs with
  | '+' :: rest =>
    if !rest.isEmpty && rest.all Char.isDigit then
      some { m with num := m.num * (10 : Int) ^ digitsVal rest } else none
  | '-' :: rest =>
    if !rest.isEmpty && rest.all Char.isDigit then
      some { m with den := m.den * 10 ^ digitsVal rest } else none
  | rest =>
    if !rest.isEmpty && rest.all Char.isDigit then
      some { m with num := m.num * (10 : Int) ^ digitsVal rest } else none

/-- Python `float(s)` on a decimal literal (source: `float(splitted[1])`).
Covers sign, integer/fraction digits and an exponent; `none` models
`ValueError`. -/
def parseFloat? (s : String) : Option PyFloat :=
  let sc : Int × List Char :=
    match s.data with
    | '+' :: rest => (1, rest)
    | '-' :: rest => (-1, rest)
    | rest => (1, rest)
  let sgn := sc.1
  let cs := sc.2
  let ip := cs.takeWhile Char.isDigit
  let rest1 := cs.dropWhile Char.isDigit
  match rest1 with
  | [] => if ip.isEmpty then none else some { num := sgn * digitsVal ip, den := 1 }
  | '.' :: rest2 =>
    let fp := rest2.takeWhile Char.isDigit
    let rest3 := rest2.dropWhile Char.isDigit
    if ip.isEmpty && fp.isEmpty then none
    else
      let mant : PyFloat :=
        { num := sgn * (digitsVal ip * 10 ^ fp.length + digitsVal fp), den := 10 ^ fp.length }
      match rest3 with
      | [] => some mant
      | c :: rest4 => if c == 'e' || c == 'E' then parseExpPart mant rest4 else none
  | c :: rest2 =>
    if (c == 'e' || c == 'E') && !ip.isEmpty then
      parseExpPart { num := sgn * digitsVal ip, den := 1 } rest2
    else none

/-- UTF-16 code units of one character (surrogate pair above the BMP). -/
def utf16EncodeChar (c : Char) : List Nat :=
  if c.toNat < 0x10000 then [c.toNat]
  else [0xD800 + (c.toNat - 0x10000) / 0x400, 0xDC00 + (c.toNat - 0x10000) % 0x400]

/-- Python `str.encode("utf-16")`: a byte-order mark followed by the code
units of each character (modelled at the code-unit level). -/
def utf16Encode (s : String) : List Nat :=
  0xFEFF :: (s.data.map utf16EncodeChar).flatten

/-- Decoding a UTF-16 code-unit stream back to characters.  On the
well-formed streams produced by `utf16Encode` this inverts it; Python
raises on ill-formed streams, which never arise in the source. -/
def utf16DecodeUnits : List Nat → List Char
  | [] => []
  | [u] => [Char.ofNat u]
  | u :: v :: rest =>
    if u < 0xD800 ∨ 0xE000 ≤ u then
      Char.ofNat u :: utf16DecodeUnits (v :: rest)
    else
      Char.ofNat (0x10000 + (u - 0xD800) * 0x400 + (v - 0xDC00)) :: utf16DecodeUnits rest

/-- Strip a leading byte-order mark, as `decode("utf-16")` does. -/
def stripBOM (units : List Nat) : List Nat :=
  match units with
  | u :: rest => if u = 0xFEFF then rest else u :: rest
  | [] => []

/-- Python `bytes.decode("utf-16")` at the code-unit level. -/
def utf16Decode (units : List Nat) : String :=
  String.mk (utf16DecodeUnits (stripBOM units))

/-- The `phrase.encode("utf-16").decode("utf-16")` round trip the source
applies to every search phrase. -/
def rt (p : String) : String :=
  utf16Decode (utf16Encode p)

/-- Lookup in the property dictionary (Python `props[k]` on the read side). -/
def getProp (P : List (String × String)) (k : String) : Option String :=
  (P.find? (fun kv => kv.1 == k)).map (fun kv => kv.2)

/-- Key-presence test in the property dictionary. -/
def containsKey (P : List (String × String)) (k : String) : Bool :=
  P.any (fun kv => kv.1 == k)

/-- Python `props[k] = v` on an insertion-ordered dictionary: update in
place when the key is present, append otherwise. -/
def setProp (P : List (String × String)) (k v : String) : List (String × String) :=
  if containsKey P k then P.map (fun kv => if kv.1 == k then (k, v) else kv)
  else P ++ [(k, v)]

/-- The mutable state of `orca_reader`'s loop: the two gate flags, the four
orbital local variables (which persist across iterations; `none` models a
not-yet-bound Python local, whose read raises `NameError`), and the
property dictionary. -/
structure RState where
  parse : Bool
  orbitals_start : Bool
  homo_Eh : Option String
  homo_eV : Option String
  lumo_Eh : Option String
  lumo_eV : Option String
  props : List (String × String)
deriving DecidableEq

/-- Writing the four orbital keys from the four local variables (source
lines 107-110, executed on every orbital row). -/
def setOrbProps (P : List (String × String)) (lEh lEv hEh hEv : String) :
    List (String × String) :=
  setProp (setProp (setProp (setProp P "LUMO (Eh)" lEh) "LUMO (eV)" lEv) "HOMO (Eh)" hEh)
    "HOMO (eV)" hEv

/-- Orbital-row branch (source lines 93-110): gated by
`parse & orbitals_start`; reads `float(splitted[1])`, keeps overwriting the
HOMO/LUMO locals on a positive occupation, fixes LUMO and closes the
section on a non-positive one, then writes the four keys from the locals. -/
def orbitalUpd (st : RState) (line : String) : Option RState :=
  if st.parse && st.orbitals_start then
    let splitted := pySplit line
    match splitted.get? 1 with
    | none => none
    | some occTok =>
      match parseFloat? occTok with
      | none => none
      | some occ =>
        match splitted.get? 2, splitted.get? 3 with
        | some t2, some t3 =>
          let st1 :=
            if 0 < occ.num then
              { st with lumo_Eh := some t2, lumo_eV := some t3,
                        homo_Eh := some t2, homo_eV := some t3 }
            else
              { st with lumo_Eh := some t2, lumo_eV := some t3,
                        parse := false, orbitals_start := false }
          match st1.lumo_Eh, st1.lumo_eV, st1.homo_Eh, st1.homo_eV with
          | some lEh, some lEv, some hEh, some hEv =>
            some { st1 with props := setOrbProps st1.props lEh lEv hEh hEv }
          | _, _, _, _ => none
        | _, _ => none
  else some st

/-- Source lines 112-113: a line containing "DIPOLE MOMENT" re-arms `parse`. -/
def dipoleUpd (st : RState) (line : String) : RState :=
  if containsStr line (rt "DIPOLE MOMENT") then { st with parse := true } else st

/-- Source lines 115-117: `props["Dipole Moment"] = line.split()[3]`. -/
def magnitudeUpd (st : RState) (line : String) : Option RState :=
  if st.parse && containsStr line (rt "Magnitude (Debye)") then
    match (pySplit line).get? 3 with
    | some t => some { st with props := setProp st.props "Dipole Moment" t }
    | none => none
  else some st

/-- Source lines 119-122: `props["polarizability"] = line.split()[3]` and
`parse = False`. -/
def polarUpd (st : RState) (line : String) : Option RState :=
  if st.parse && containsStr line (rt "Isotropic polarizability") then
    match (pySplit line).get? 3 with
    | some t => some { st with props := setProp st.props "polarizability" t, parse := false }
    | none => none
  else some st

/-- Source lines 124-125: a line containing "INNER ENERGY" re-arms `parse`. -/
def innerUpd (st : RState) (line : String) : RState :=
  if containsStr line (rt "INNER ENERGY") then { st with parse := true } else st

/-- Source lines 127-129: `props["U"] = line.split()[3]`. -/
def uUpd (st : RState) (line : String) : Option RState :=
  if st.parse && containsStr line (rt "Total thermal energy") then
    match (pySplit line).get? 3 with
    | some t => some { st with props := setProp st.props "U" t }
    | none => none
  else some st

/-- Source lines 131-133: `props["H"] = line.split()[3]`. -/
def hUpd (st : RState) (line : String) : Option RState :=
  if st.parse && containsStr line (rt "Total Enthalpy") then
    match (pySplit line).get? 3 with
    | some t => some { st with props := setProp st.props "H" t }
    | none => none
  else some st

/-- Source lines 135-137: `props["S"] = line.split()[4]`. -/
def sUpd (st : RState) (line : String) : Option RState :=
  if st.parse && containsStr line (rt "Final entropy term") then
    match (pySplit line).get? 4 with
    | some t => some { st with props := setProp st.props "S" t }
    | none => none
  else some st

/-- Source lines 139-141: `props["G"] = line.split()[5]`. -/
def gUpd (st : RState) (line : String) : Option RState :=
  if st.parse && containsStr line (rt "Final Gibbs") then
    match (pySplit line).get? 5 with
    | some t => some { st with props := setProp st.props "G" t }
    | none => none
  else some st

/-- Source lines 143-147: `A, B, C = line.split()[4:7]` (the unpacking
raises unless the slice has three elements, i.e. the line has at least
seven tokens). -/
def rotUpd (st : RState) (line : String) : Option RState :=
  if st.parse && containsStr line (rt "Rotational constants in cm-1:") then
    match (pySplit line).get? 4, (pySplit line).get? 5, (pySplit line).get? 6 with
    | some a, some b, some c =>
      some { st with props := setProp (setProp (setProp st.props "A" a) "B" b) "C" c }
    | _, _, _ => none
  else some st

/-- One iteration of `orca_reader`'s `for line in output` loop (source
lines 84-147).  The first two branches `continue`; every later block falls
through on the same line, reading the flags as updated so far. -/
def readerStep (st : RState) (line : String) : Option RState :=
  if containsStr line (rt "ORBITAL ENERGIES") then some { st with parse := true }
  else if containsStr line (rt "E(Eh)") then some { st with orbitals_start := true }
  else
    (orbitalUpd st line).bind fun sa =>
    (magnitudeUpd (dipoleUpd sa line) line).bind fun sb =>
    (polarUpd sb line).bind fun sc =>
    (uUpd (innerUpd sc line) line).bind fun sd =>
    (hUpd sd line).bind fun se =>
    (sUpd se line).bind fun sf =>
    (gUpd sf line).bind fun sg =>
    rotUpd sg line

/-- State at entry of the loop: both flags down, locals unbound,
`props = {"smiles": smiles}` (source lines 80-83). -/
def initState (smiles : String) : RState :=
  { parse := false, orbitals_start := false,
    homo_Eh := none, homo_eV := none, lumo_Eh := none, lumo_eV := none,
    props := [("smiles", smiles)] }

/-- The whole loop: fold `readerStep` over the lines, propagating a raise. -/
def runReader : RState → List String → Option RState
  | st, [] => some st
  | st, l :: ls => (readerStep st l).bind fun st2 => runReader st2 ls

/-- The report parser `orca_reader` (source lines 55-148), applied to the
lines of the report file `{nb}.out`: returns the property dictionary, or
`none` when some iteration raised. -/
def orca_reader (smiles : String) (lines : List String) : Option (List (String × String)) :=
  (runReader (initState smiles) lines).map (fun st => st.props)

example : pySplit "  0   2.0000     -0.123   -3.35  " = ["0", "2.0000", "-0.123", "-3.35"] := by decide
example : parseFloat? "2.0000" = some { num := 20000, den := 10000 } := by decide
example : parseFloat? "-0.5" = some { num := -5, den := 10 } := by decide
example : parseFloat? "1e2" = some { num := 100, den := 1 } := by decide
example : parseFloat? "abc" = none := by decide
example : rt "E(Eh)" = "E(Eh)" := by decide
example : containsStr "xx ORBITAL ENERGIES yy" "ORBITAL ENERGIES" = true := by decide
example : containsStr "hello" "E(Eh)" = false := by decide
example : orca_reader "C" [] = some [("smiles", "C")] := by decide
example :
    orca_reader "C" ["ORBITAL ENERGIES", "E(Eh)", "0 2.0000 -0.123 -3.35", "1 0.0000 0.045 1.22"]
      = some [("smiles", "C"), ("LUMO (Eh)", "0.045"), ("LUMO (eV)", "1.22"),
              ("HOMO (Eh)", "-0.123"), ("HOMO (eV)", "-3.35")] := by decide

/-- Name of the ORCA executable (source line 9). -/
def ORCA_EXECUTABLE : String := "orca"

/-- Name of the input file the Input Builder writes (source line 51:
`open(f"{nb}.inp", "w")`). -/
def orca_generator_file (nb : Nat) : String := toString nb ++ ".inp"

/-- Name of the report file the Report Parser reads (source line 77:
`open(f"{nb}.out", encoding="utf-16")`). -/
def orca_reader_file (nb : Nat) : String := toString nb ++ ".out"

/-- Argument vector of the external-program invocation (source line 176:
`subprocess.run([ORCA_EXECUTABLE, f"{smiles}.inp", ">", f"{smiles}.out"])`).
The list form of `subprocess.run` executes without a shell, so each string
is one literal argv element. -/
def orcaArgs (smiles : String) : List String :=
  [ORCA_EXECUTABLE, smiles ++ ".inp", ">", smiles ++ ".out"]

/-- Observable side effects of one `orcanize` call.  rdkit-derived file
contents are outside the embedding, so `writeInput` records only the file
name; `runProc` records the argv list handed to `subprocess.run` (no
shell). -/
inductive Ev : Type where
  | writeInput : String → Ev
  | runProc : List String → Ev
  | readReport : String → Ev
  | appendDone : Nat → String → Ev
  | appendUndone : Nat → String → Ev
deriving DecidableEq

/-- The line format of both outcome logs (source lines 183 and 187:
`f"{nb} {smiles}\n"`). -/
def logLine (nb : Nat) (smiles : String) : String :=
  toString nb ++ " " ++ smiles ++ "\n"

/-- Result of one `orcanize` call: the returned value (`none` on the
swallowed-exception path, which falls off the end of the function), the
entries appended to each log, and the effect trace. -/
structure OrcRun where
  result : Option (List (String × String))
  doneAppends : List (Nat × String)
  undoneAppends : List (Nat × String)
  events : List Ev
deriving DecidableEq

/-- The Job Orchestrator `orcanize` (source lines 151-188): build the input
file, invoke ORCA, then try to parse the report `{nb}.out`; on success
append to `done.log` and return the mapping, on any exception append to
`undone.log` and return `None`.  The Input Builder and Job Runner are
external collaborators modelled as always-completing effects; the report
content the runner leaves behind for handle `nb` is supplied by the
environment `reports`. -/
def orcanize (reports : Nat → List String) (smiles : String) (nb : Nat) : OrcRun :=
  let pre := [Ev.writeInput (orca_generator_file nb),
              Ev.runProc (orcaArgs smiles),
              Ev.readReport (orca_reader_file nb)]
  match orca_reader smiles (reports nb) with
  | some props =>
    { result := some props, doneAppends := [(nb, smiles)], undoneAppends := [],
      events := pre ++ [Ev.appendDone nb smiles] }
  | none =>
    { result := none, doneAppends := [], undoneAppends := [(nb, smiles)],
      events := pre ++ [Ev.appendUndone nb smiles] }

/-- Accumulated state of the Batch Driver: the pandas table (one entry per
`append`; `none` is the all-missing row that `outdata.append(pd.DataFrame(None,
index=[0]))` contributes when `orcanize` returned `None`), the two logs as
(handle, identifier) entries, and the number of `to_csv` writes. -/
structure BatchState where
  table : List (Option (List (String × String)))
  done : List (Nat × String)
  undone : List (Nat × String)
  saves : Nat
deriving DecidableEq

/-- The loop body of `orcanize_many` (source lines 206-211), iterated over
the enumerated molecules: each iteration appends one row to the table
(whatever `orcanize` returned) and, when `save` is set, rewrites the csv. -/
def orcanize_many_aux (reports : Nat → List String) (save : Bool) :
    Nat → List String → BatchState → BatchState
  | _, [], st => st
  | nb, smiles :: rest, st =>
    let r := orcanize reports smiles nb
    orcanize_many_aux reports save (nb + 1) rest
      { table := st.table ++ [r.result],
        done := st.done ++ r.doneAppends,
        undone := st.undone ++ r.undoneAppends,
        saves := if save then st.saves + 1 else st.saves }

/-- The Batch Driver `orcanize_many` (source lines 190-212): enumerate the
molecules from handle 0 and fold the loop body from an empty table and
empty logs. -/
def orcanize_many (molecules : List String) (reports : Nat → List String) (save : Bool) :
    BatchState :=
  orcanize_many_aux reports save 0 molecules
    { table := [], done := [], undone := [], saves := 0 }

/-- Table rows contributed by molecules from handle `nb` on (the fate of
each molecule is `orca_reader` on its report). -/
def tableList (reports : Nat → List String) : Nat → List String → List (Option (List (String × String)))
  | _, [] => []
  | nb, smiles :: rest => orca_reader smiles (reports nb) :: tableList reports (nb + 1) rest

/-- `done.log` entries contributed by molecules from handle `nb` on. -/
def doneList (reports : Nat → List String) : Nat → List String → List (Nat × String)
  | _, [] => []
  | nb, smiles :: rest =>
    (match orca_reader smiles (reports nb) with
      | some _ => [(nb, smiles)]
      | none => []) ++ doneList reports (nb + 1) rest

/-- `undone.log` entries contributed by molecules from handle `nb` on. -/
def undoneList (reports : Nat → List String) : Nat → List String → List (Nat × String)
  | _, [] => []
  | nb, smiles :: rest =>
    (match orca_reader smiles (reports nb) with
      | some _ => []
      | none => [(nb, smiles)]) ++ undoneList reports (nb + 1) rest

theorem orcanize_many_aux_spec (reports : Nat → List String) (save : Bool) :
    ∀ (ms : List String) (nb : Nat) (st : BatchState),
    orcanize_many_aux reports save nb ms st =
      { table := st.table ++ tableList reports nb ms,
        done := st.done ++ doneList reports nb ms,
        undone := st.undone ++ undoneList reports nb ms,
        saves := st.saves + (if save then ms.length else 0) } := by
  intro ms
  induction ms with
  | nil => intro nb st; simp [orcanize_many_aux, tableList, doneList, undoneList]
  | cons m rest ih =>
    intro nb st
    rw [orcanize_many_aux, ih]
    unfold orcanize
    cases h : orca_reader m (reports nb) with
    | some props =>
      simp [tableList, doneList, undoneList, h]
      cases save
      all_goals simp
      all_goals omega
    | none =>
      simp [tableList, doneList, undoneList, h]
      cases save
      all_goals simp
      all_goals omega

theorem orcanize_many_spec (molecules : List String) (reports : Nat → List String) (save : Bool) :
    orcanize_many molecules reports save =
      { table := tableList reports 0 molecules,
        done := doneList reports 0 molecules,
        undone := undoneList reports 0 molecules,
        saves := if save then molecules.length else 0 } := by
  rw [orcanize_many, orcanize_many_aux_spec]
  simp

theorem utf16DecodeUnits_encode (c : Char) (rest : List Nat) :
    utf16DecodeUnits (utf16EncodeChar c ++ rest) = c :: utf16DecodeUnits rest := by
  have hv : c.toNat < 0xD800 ∨ (0xDFFF < c.toNat ∧ c.toNat < 0x110000) := c.valid
  rw [utf16EncodeChar]
  by_cases h : c.toNat < 0x10000
  · rw [if_pos h]
    have hr : c.toNat < 0xD800 ∨ 0xE000 ≤ c.toNat := by omega
    cases rest with
    | nil => simp [utf16DecodeUnits]
    | cons v r =>
      simp only [List.cons_append, List.nil_append, utf16DecodeUnits]
      rw [if_pos hr, Char.ofNat_toNat]
  · rw [if_neg h]
    have hm : (c.toNat - 0x10000) / 0x400 < 0x400 := by omega
    have h1 : ¬(0xD800 + (c.toNat - 0x10000) / 0x400 < 0xD800 ∨
        0xE000 ≤ 0xD800 + (c.toNat - 0x10000) / 0x400) := by omega
    simp only [List.cons_append, List.nil_append, utf16DecodeUnits]
    rw [if_neg h1]
    have h2 : 0x10000 + (0xD800 + (c.toNat - 0x10000) / 0x400 - 0xD800) * 0x400 +
        (0xDC00 + (c.toNat - 0x10000) % 0x400 - 0xDC00) = c.toNat := by omega
    rw [h2, Char.ofNat_toNat]
    rfl

theorem utf16_data_roundtrip (l : List Char) :
    utf16DecodeUnits (l.map utf16EncodeChar).flatten = l := by
  induction l with
  | nil => rfl
  | cons c rest ih =>
    rw [List.map_cons, List.flatten_cons, utf16DecodeUnits_encode, ih]

@[simp] theorem rt_eq (p : String) : rt p = p := by
  show utf16Decode (utf16Encode p) = p
  rw [utf16Encode, utf16Decode]
  have h1 : stripBOM (0xFEFF :: (p.data.map utf16EncodeChar).flatten)
      = (p.data.map utf16EncodeChar).flatten := by simp [stripBOM]
  rw [h1, utf16_data_roundtrip]

/-- Variant of `dipoleUpd` matching the literal phrase, without the
encode/decode round trip (the comparison point for the spec's claim that
the round trip is functionally a no-op). -/
def dipoleUpdPlain (st : RState) (line : String) : RState :=
  if containsStr line "DIPOLE MOMENT" then { st with parse := true } else st

/-- Variant of `magnitudeUpd` without the round trip. -/
def magnitudeUpdPlain (st : RState) (line : String) : Option RState :=
  if st.parse && containsStr line "Magnitude (Debye)" then
    match (pySplit line).get? 3 with
    | some t => some { st with props := setProp st.props "Dipole Moment" t }
    | none => none
  else some st

/-- Variant of `polarUpd` without the round trip. -/
def polarUpdPlain (st : RState) (line : String) : Option RState :=
  if st.parse && containsStr line "Isotropic polarizability" then
    match (pySplit line).get? 3 with
    | some t => some { st with props := setProp st.props "polarizability" t, parse := false }
    | none => none
  else some st

/-- Variant of `innerUpd` without the round trip. -/
def innerUpdPlain (st : RState) (line : String) : RState :=
  if containsStr line "INNER ENERGY" then { st with parse := true } else st

/-- Variant of `uUpd` without the round trip. -/
def uUpdPlain (st : RState) (line : String) : Option RState :=
  if st.parse && containsStr line "Total thermal energy" then
    match (pySplit line).get? 3 with
    | some t => some { st with props := setProp st.props "U" t }
    | none => none
  else some st

/-- Variant of `hUpd` without the round trip. -/
def hUpdPlain (st : RState) (line : String) : Option RState :=
  if st.parse && containsStr line "Total Enthalpy" then
    match (pySplit line).get? 3 with
    | some t => some { st with props := setProp st.props "H" t }
    | none => none
  else some st

/-- Variant of `sUpd` without the round trip. -/
def sUpdPlain (st : RState) (line : String) : Option RState :=
  if st.parse && containsStr line "Final entropy term" then
    match (pySplit line).get? 4 with
    | some t => some { st with props := setProp st.props "S" t }
    | none => none
  else some st

/-- Variant of `gUpd` without the round trip. -/
def gUpdPlain (st : RState) (line : String) : Option RState :=
  if st.parse && containsStr line "Final Gibbs" then
    match (pySplit line).get? 5 with
    | some t => some { st with props := setProp st.props "G" t }
    | none => none
  else some st

/-- Variant of `rotUpd` without the round trip. -/
def rotUpdPlain (st : RState) (line : String) : Option RState :=
  if st.parse && containsStr line "Rotational constants in cm-1:" then
    match (pySplit line).get? 4, (pySplit line).get? 5, (pySplit line).get? 6 with
    | some a, some b, some c =>
      some { st with props := setProp (setProp (setProp st.props "A" a) "B" b) "C" c }
    | _, _, _ => none
  else some st

/-- Variant of `readerStep` matching every phrase literally. -/
def readerStepPlain (st : RState) (line : String) : Option RState :=
  if containsStr line "ORBITAL ENERGIES" then some { st with parse := true }
  else if containsStr line "E(Eh)" then some { st with orbitals_start := true }
  else
    (orbitalUpd st line).bind fun sa =>
    (magnitudeUpdPlain (dipoleUpdPlain sa line) line).bind fun sb =>
    (polarUpdPlain sb line).bind fun sc =>
    (uUpdPlain (innerUpdPlain sc line) line).bind fun sd =>
    (hUpdPlain sd line).bind fun se =>
    (sUpdPlain se line).bind fun sf =>
    (gUpdPlain sf line).bind fun sg =>
    rotUpdPlain sg line

/-- Variant of `runReader` over `readerStepPlain`. -/
def runReaderPlain : RState → List String → Option RState
  | st, [] => some st
  | st, l :: ls => (readerStepPlain st l).bind fun st2 => runReaderPlain st2 ls

/-- The parser with literal phrase matching throughout. -/
def orca_reader_plain (smiles : String) (lines : List String) :
    Option (List (String × String)) :=
  (runReaderPlain (initState smiles) lines).map (fun st => st.props)

theorem readerStepPlain_eq (st : RState) (line : String) :
    readerStepPlain st line = readerStep st line := by
  simp only [readerStepPlain, readerStep, dipoleUpdPlain, dipoleUpd,
    magnitudeUpdPlain, magnitudeUpd, polarUpdPlain, polarUpd,
    innerUpdPlain, innerUpd, uUpdPlain, uUpd, hUpdPlain, hUpd,
    sUpdPlain, sUpd, gUpdPlain, gUpd, rotUpdPlain, rotUpd, rt_eq]

theorem runReaderPlain_eq (lines : List String) :
    ∀ st : RState, runReaderPlain st lines = runReader st lines := by
  induction lines with
  | nil => intro st; rfl
  | cons l ls ih =>
    intro st
    show (readerStepPlain st l).bind _ = (readerStep st l).bind _
    rw [readerStepPlain_eq]
    cases readerStep st l with
    | some st2 => exact ih st2
    | none => rfl

/-- C8: for every string `p`, the utf-16 encode-then-decode round trip
returns `p` itself, so matching a header phrase after the round trip is
the same as matching the literal phrase, and `orca_reader` computes the
same property mapping whether or not the round trip is applied to its
search phrases. -/
theorem c8_utf16_roundtrip_noop :
    (∀ p : String, rt p = p) ∧
    (∀ line p : String, containsStr line (rt p) = containsStr line p) ∧
    (∀ smiles lines, orca_reader_plain smiles lines = orca_reader smiles lines) := by
  refine ⟨rt_eq, ?_, ?_⟩
  · intro line p; rw [rt_eq]
  · intro smiles lines
    rw [orca_reader_plain, orca_reader, runReaderPlain_eq]

/-- The eleven header/extraction phrases the scanner reacts to. -/
def triggerPhrases : List String :=
  ["ORBITAL ENERGIES", "E(Eh)", "DIPOLE MOMENT", "Magnitude (Debye)",
   "Isotropic polarizability", "INNER ENERGY", "Total thermal energy",
   "Total Enthalpy", "Final entropy term", "Final Gibbs",
   "Rotational constants in cm-1:"]

/-- A line containing none of the scanner's trigger phrases. -/
def plainLine (l : String) : Bool :=
  triggerPhrases.all fun p => !(containsStr l p)

theorem readerStep_plainLine (st : RState) (l : String) (hl : plainLine l = true)
    (ho : st.orbitals_start = false) :
    readerStep st l = some st := by
  simp only [plainLine, triggerPhrases, List.all_cons, List.all_nil, Bool.and_true,
    Bool.and_eq_true, Bool.not_eq_true'] at hl
  obtain ⟨h1, h2, h3, h4, h5, h6, h7, h8, h9, h10, h11⟩ := hl
  simp only [readerStep, orbitalUpd, dipoleUpd, magnitudeUpd, polarUpd, innerUpd,
    uUpd, hUpd, sUpd, gUpd, rotUpd, rt_eq, h1, h2, h3, h4, h5, h6, h7, h8, h9, h10, h11,
    ho, Bool.and_false, Bool.false_eq_true, if_false, Option.bind_some, Option.some_bind]

theorem runReader_plainLines (lines : List String) :
    ∀ st : RState, (∀ l ∈ lines, plainLine l = true) → st.orbitals_start = false →
    runReader st lines = some st := by
  induction lines with
  | nil => intro st _ _; rfl
  | cons l ls ih =>
    intro st h ho
    show (readerStep st l).bind _ = some st
    rw [readerStep_plainLine st l (h l (List.mem_cons_self l ls)) ho]
    exact ih st (fun x hx => h x (List.mem_cons_of_mem l hx)) ho

/-- The keys under which the eleven documented properties are stored
(HOMO and LUMO each contribute a Hartree and an eV key). -/
def requiredKeys : List String :=
  ["HOMO (Eh)", "HOMO (eV)", "LUMO (Eh)", "LUMO (eV)", "Dipole Moment",
   "polarizability", "U", "H", "S", "G", "A", "B", "C"]

/-- Whether a mapping carries all eleven documented properties. -/
def hasAllRequired (P : List (String × String)) : Bool :=
  requiredKeys.all fun k => (getProp P k).isSome

/-- C2 counterexample: on the empty report `orca_reader` neither raises nor
returns all eleven properties — it returns normally with a mapping holding
only the identifier, so the claim "returns all eleven or raises" is false,
as is "fails whenever any required header phrase is absent". -/
theorem c2_counterexample_empty_report :
    orca_reader "C" [] = some [("smiles", "C")] ∧
    hasAllRequired [("smiles", "C")] = false := by
  constructor
  · rfl
  · decide

/-- C2 amended: when the required header phrases are absent (no line
contains any trigger phrase) `orca_reader` returns normally with a mapping
that silently omits the corresponding properties — it holds only the
identifier; exceptions propagate only from a matched orbital row, as on
the short row "xyz" below. -/
theorem c2_amended_silent_omission :
    (∀ smiles lines, (∀ l ∈ lines, plainLine l = true) →
      orca_reader smiles lines = some [("smiles", smiles)]) ∧
    orca_reader "C" ["ORBITAL ENERGIES", "E(Eh)", "xyz"] = none := by
  constructor
  · intro smiles lines h
    rw [orca_reader, runReader_plainLines lines (initState smiles) h rfl]
    rfl
  · decide

/-- Witness for the amended C2 at a concrete header-free report. -/
theorem c2_amended_witness :
    orca_reader "C" ["no section headers here"] = some [("smiles", "C")] :=
  c2_amended_silent_omission.1 "C" ["no section headers here"] (by decide)

/-- The occupation value of an orbital row: `float(line.split()[1])`. -/
def rowOcc (l : String) : Option PyFloat :=
  ((pySplit l).get? 1).bind parseFloat?

/-- Token 2 of a row (energy in Hartree). -/
def rowT2 (l : String) : Option String :=
  (pySplit l).get? 2

/-- Token 3 of a row (energy in eV). -/
def rowT3 (l : String) : Option String :=
  (pySplit l).get? 3

/-- The row's occupation parses and is positive (`float(splitted[1]) > 0`). -/
def occPos (l : String) : Bool :=
  match rowOcc l with
  | some q => decide (0 < q.num)
  | none => false

/-- The row's occupation parses and is non-positive. -/
def occNonpos (l : String) : Bool :=
  match rowOcc l with
  | some q => decide (q.num ≤ 0)
  | none => false

/-- A well-formed occupied orbital row: no trigger phrase, positive parsed
occupation, and at least four whitespace tokens. -/
def posRow (l : String) : Bool :=
  plainLine l && occPos l && (rowT2 l).isSome && (rowT3 l).isSome

/-- A well-formed virtual orbital row: no trigger phrase, non-positive
parsed occupation, and at least four whitespace tokens. -/
def negRow (l : String) : Bool :=
  plainLine l && occNonpos l && (rowT2 l).isSome && (rowT3 l).isSome

/-- Shape of the property dictionary after the first orbital row has been
processed: identifier first, then the four orbital keys in the insertion
order of source lines 107-110. -/
def hlProps (s lEh lEv hEh hEv : String) : List (String × String) :=
  [("smiles", s), ("LUMO (Eh)", lEh), ("LUMO (eV)", lEv), ("HOMO (Eh)", hEh), ("HOMO (eV)", hEv)]

theorem setOrbProps_init (s w x y z : String) :
    setOrbProps [("smiles", s)] w x y z = hlProps s w x y z := by
  simp +decide [setOrbProps, setProp, containsKey, hlProps]

theorem setOrbProps_hlProps (s a b c d w x y z : String) :
    setOrbProps (hlProps s a b c d) w x y z = hlProps s w x y z := by
  simp +decide [setOrbProps, setProp, containsKey, hlProps]

theorem readerStep_posRow (st : RState) (l : String) (x y : String)
    (hp : st.parse = true) (ho : st.orbitals_start = true)
    (hl : plainLine l = true) (hocc : occPos l = true)
    (ht2 : rowT2 l = some x) (ht3 : rowT3 l = some y) :
    readerStep st l = some { st with
      homo_Eh := some x, homo_eV := some y,
      lumo_Eh := some x, lumo_eV := some y,
      props := setOrbProps st.props x y x y } := by
  simp only [plainLine, triggerPhrases, List.all_cons, List.all_nil, Bool.and_true,
    Bool.and_eq_true, Bool.not_eq_true'] at hl
  obtain ⟨h1, h2, h3, h4, h5, h6, h7, h8, h9, h10, h11⟩ := hl
  rw [occPos] at hocc
  rcases hq : rowOcc l with _ | q
  · rw [hq] at hocc; exact absurd hocc (by simp)
  rw [hq] at hocc
  have hqpos : 0 < q.num := of_decide_eq_true hocc
  rw [rowOcc] at hq
  obtain ⟨t1, hg1, hpf⟩ := Option.bind_eq_some.mp hq
  rw [rowT2] at ht2
  rw [rowT3] at ht3
  simp only [readerStep, rt_eq, h1, h2, h3, h4, h5, h6, h7, h8, h9, h10, h11,
    Bool.false_eq_true, if_false, orbitalUpd, hp, ho, Bool.and_self, if_true,
    hg1, hpf, ht2, ht3, if_pos hqpos, dipoleUpd, magnitudeUpd, polarUpd, innerUpd,
    uUpd, hUpd, sUpd, gUpd, rotUpd, Bool.and_false, Option.some_bind]

theorem readerStep_negRow (st : RState) (l : String) (hx hy x y : String)
    (hp : st.parse = true) (ho : st.orbitals_start = true)
    (hh1 : st.homo_Eh = some hx) (hh2 : st.homo_eV = some hy)
    (hl : plainLine l = true) (hocc : occNonpos l = true)
    (ht2 : rowT2 l = some x) (ht3 : rowT3 l = some y) :
    readerStep st l = some { st with
      parse := false, orbitals_start := false,
      lumo_Eh := some x, lumo_eV := some y,
      props := setOrbProps st.props x y hx hy } := by
  simp only [plainLine, triggerPhrases, List.all_cons, List.all_nil, Bool.and_true,
    Bool.and_eq_true, Bool.not_eq_true'] at hl
  obtain ⟨h1, h2, h3, h4, h5, h6, h7, h8, h9, h10, h11⟩ := hl
  rw [occNonpos] at hocc
  rcases hq : rowOcc l with _ | q
  · rw [hq] at hocc; exact absurd hocc (by simp)
  rw [hq] at hocc
  have hqn : q.num ≤ 0 := of_decide_eq_true hocc
  have hqn2 : ¬(0 < q.num) := by omega
  rw [rowOcc] at hq
  obtain ⟨t1, hg1, hpf⟩ := Option.bind_eq_some.mp hq
  rw [rowT2] at ht2
  rw [rowT3] at ht3
  simp only [readerStep, rt_eq, h1, h2, h3, h4, h5, h6, h7, h8, h9, h10, h11,
    Bool.false_eq_true, if_false, orbitalUpd, hp, ho, Bool.and_self, if_true,
    hg1, hpf, ht2, ht3, if_neg hqn2, hh1, hh2, dipoleUpd, magnitudeUpd, polarUpd, innerUpd,
    uUpd, hUpd, sUpd, gUpd, rotUpd, Bool.and_false, Bool.false_and, Option.some_bind]


theorem runReader_nil (st : RState) : runReader st [] = some st := rfl

theorem runReader_cons (st : RState) (l : String) (ls : List String) :
    runReader st (l :: ls) = (readerStep st l).bind fun st2 => runReader st2 ls := rfl

theorem runReader_append (xs ys : List String) :
    ∀ st : RState, runReader st (xs ++ ys) = (runReader st xs).bind (fun st2 => runReader st2 ys) := by
  induction xs with
  | nil => intro st; rfl
  | cons l ls ih =>
    intro st
    rw [List.cons_append, runReader_cons, runReader_cons]
    cases readerStep st l with
    | some st2 => rw [Option.some_bind, Option.some_bind, ih]
    | none => rfl

theorem runReader_posRows (lastRow x y : String)
    (ht2 : rowT2 lastRow = some x) (ht3 : rowT3 lastRow = some y) :
    ∀ (earlier : List String) (st : RState) (s : String),
    st.parse = true → st.orbitals_start = true →
    (st.props = [("smiles", s)] ∨ ∃ p q r t, st.props = hlProps s p q r t) →
    (∀ l ∈ earlier ++ [lastRow], posRow l = true) →
    runReader st (earlier ++ [lastRow]) = some { st with
      homo_Eh := some x, homo_eV := some y,
      lumo_Eh := some x, lumo_eV := some y,
      props := hlProps s x y x y } := by
  intro earlier
  induction earlier with
  | nil =>
    intro st s hp ho hprops hrows
    have hlast := hrows lastRow (by simp)
    simp only [posRow, Bool.and_eq_true] at hlast
    obtain ⟨⟨⟨hpl, hocc⟩, _⟩, _⟩ := hlast
    rw [List.nil_append, runReader_cons,
      readerStep_posRow st lastRow x y hp ho hpl hocc ht2 ht3,
      Option.some_bind, runReader_nil]
    rcases hprops with hbase | ⟨p, q, r, t, hhl⟩
    · rw [hbase, setOrbProps_init]
    · rw [hhl, setOrbProps_hlProps]
  | cons e es ih =>
    intro st s hp ho hprops hrows
    have he := hrows e (by simp)
    simp only [posRow, Bool.and_eq_true] at he
    obtain ⟨⟨⟨hpl, hocc⟩, hs2⟩, hs3⟩ := he
    obtain ⟨xe, hxe⟩ := Option.isSome_iff_exists.mp hs2
    obtain ⟨ye, hye⟩ := Option.isSome_iff_exists.mp hs3
    rw [List.cons_append, runReader_cons,
      readerStep_posRow st e xe ye hp ho hpl hocc hxe hye, Option.some_bind]
    have hrest : ∀ l ∈ es ++ [lastRow], posRow l = true := by
      intro l hlmem; exact hrows l (by simp [hlmem])
    have hdisj : setOrbProps st.props xe ye xe ye = hlProps s xe ye xe ye := by
      rcases hprops with hbase | ⟨p, q, r, t, hhl⟩
      · rw [hbase, setOrbProps_init]
      · rw [hhl, setOrbProps_hlProps]
    exact ih _ s hp ho (Or.inr ⟨xe, ye, xe, ye, hdisj⟩) hrest

theorem readerStep_oe_header (st : RState) :
    readerStep st "ORBITAL ENERGIES" = some { st with parse := true } := by
  simp +decide [readerStep]

theorem readerStep_eh_header (st : RState) :
    readerStep st "E(Eh)" = some { st with orbitals_start := true } := by
  simp +decide [readerStep]

/-- C1: on a well-formed "ORBITAL ENERGIES" section — the header line, the
"E(Eh)" line, then orbital rows of at least four whitespace tokens whose
token 1 parses as a number, with at least one positive-occupation row
followed by a non-positive one — `orca_reader` binds "HOMO (Eh)"/"HOMO (eV)"
to tokens 2 and 3 of the last positive-occupation row and
"LUMO (Eh)"/"LUMO (eV)" to tokens 2 and 3 of the first non-positive row,
and then disables orbital scanning (both gate flags are down in the final
state).  Instantiated at the claim's two rows `... 2.0000 -0.123 -3.35` /
`... 0.0000 0.045 1.22` this yields HOMO (Eh) = -0.123, HOMO (eV) = -3.35,
LUMO (Eh) = 0.045, LUMO (eV) = 1.22 (see the witness). -/
theorem c1_orbital_homo_lumo (smiles : String) (earlier : List String)
    (lastRow negR x y lx ly : String)
    (hrows : ∀ l ∈ earlier ++ [lastRow], posRow l = true)
    (hneg : negRow negR = true)
    (ht2 : rowT2 lastRow = some x) (ht3 : rowT3 lastRow = some y)
    (hl2 : rowT2 negR = some lx) (hl3 : rowT3 negR = some ly) :
    orca_reader smiles (["ORBITAL ENERGIES", "E(Eh)"] ++ (earlier ++ [lastRow]) ++ [negR])
      = some (hlProps smiles lx ly x y) ∧
    runReader (initState smiles) (["ORBITAL ENERGIES", "E(Eh)"] ++ (earlier ++ [lastRow]) ++ [negR])
      = some { parse := false, orbitals_start := false,
               homo_Eh := some x, homo_eV := some y,
               lumo_Eh := some lx, lumo_eV := some ly,
               props := hlProps smiles lx ly x y } := by
  simp only [negRow, Bool.and_eq_true] at hneg
  obtain ⟨⟨⟨hnpl, hnocc⟩, _⟩, _⟩ := hneg
  have hrun : runReader (initState smiles)
      (["ORBITAL ENERGIES", "E(Eh)"] ++ (earlier ++ [lastRow]) ++ [negR])
      = some { parse := false, orbitals_start := false,
               homo_Eh := some x, homo_eV := some y,
               lumo_Eh := some lx, lumo_eV := some ly,
               props := hlProps smiles lx ly x y } := by
    rw [List.append_assoc, List.cons_append, List.cons_append, List.nil_append,
      runReader_cons, readerStep_oe_header, Option.some_bind,
      runReader_cons, readerStep_eh_header, Option.some_bind,
      runReader_append,
      runReader_posRows lastRow x y ht2 ht3 earlier _ smiles rfl rfl (Or.inl rfl) hrows,
      Option.some_bind, runReader_cons,
      readerStep_negRow _ negR x y lx ly rfl rfl rfl rfl hnpl hnocc hl2 hl3,
      Option.some_bind, runReader_nil, setOrbProps_hlProps]
  exact ⟨by rw [orca_reader, hrun]; rfl, hrun⟩

/-- Witness for C1 at the claim's two concrete rows. -/
theorem c1_witness :
    orca_reader "C" ["ORBITAL ENERGIES", "E(Eh)", "... 2.0000 -0.123 -3.35", "... 0.0000 0.045 1.22"]
      = some [("smiles", "C"), ("LUMO (Eh)", "0.045"), ("LUMO (eV)", "1.22"),
              ("HOMO (Eh)", "-0.123"), ("HOMO (eV)", "-3.35")] :=
  (c1_orbital_homo_lumo "C" [] "... 2.0000 -0.123 -3.35" "... 0.0000 0.045 1.22"
    "-0.123" "-3.35" "0.045" "1.22"
    (by decide) (by decide) (by decide) (by decide) (by decide) (by decide)).1

/-- A line that contains the trigger phrase `p` and no other trigger
phrase. -/
def onlyTrigger (l p : String) : Bool :=
  containsStr l p && (triggerPhrases.all fun q => q == p || !(containsStr l q))

theorem readerStep_dipole_header (st : RState) (l : String)
    (ho : st.orbitals_start = false) (hl : onlyTrigger l "DIPOLE MOMENT" = true) :
    readerStep st l = some { st with parse := true } := by
  simp +decide [onlyTrigger, triggerPhrases] at hl
  obtain ⟨hc, h1, h2, h4, h5, h6, h7, h8, h9, h10, h11⟩ := hl
  simp only [readerStep, orbitalUpd, dipoleUpd, magnitudeUpd, polarUpd, innerUpd,
    uUpd, hUpd, sUpd, gUpd, rotUpd, rt_eq, hc, h1, h2, h4, h5, h6, h7, h8, h9, h10, h11,
    ho, Bool.and_false, Bool.false_eq_true, if_false, if_true, Option.some_bind]

theorem readerStep_magnitude (st : RState) (l t : String)
    (hp : st.parse = true) (ho : st.orbitals_start = false)
    (hl : onlyTrigger l "Magnitude (Debye)" = true)
    (ht : (pySplit l).get? 3 = some t) :
    readerStep st l = some { st with props := setProp st.props "Dipole Moment" t } := by
  simp +decide [onlyTrigger, triggerPhrases] at hl
  obtain ⟨hc, h1, h2, h3, h5, h6, h7, h8, h9, h10, h11⟩ := hl
  simp only [readerStep, orbitalUpd, dipoleUpd, magnitudeUpd, polarUpd, innerUpd,
    uUpd, hUpd, sUpd, gUpd, rotUpd, rt_eq, hc, h1, h2, h3, h5, h6, h7, h8, h9, h10, h11,
    hp, ho, ht, Bool.and_false, Bool.and_true, Bool.true_and, Bool.false_eq_true,
    if_false, if_true, Option.some_bind]

theorem readerStep_polar (st : RState) (l t : String)
    (hp : st.parse = true) (ho : st.orbitals_start = false)
    (hl : onlyTrigger l "Isotropic polarizability" = true)
    (ht : (pySplit l).get? 3 = some t) :
    readerStep st l = some { st with
      parse := false, props := setProp st.props "polarizability" t } := by
  simp +decide [onlyTrigger, triggerPhrases] at hl
  obtain ⟨hc, h1, h2, h3, h4, h6, h7, h8, h9, h10, h11⟩ := hl
  simp only [readerStep, orbitalUpd, dipoleUpd, magnitudeUpd, polarUpd, innerUpd,
    uUpd, hUpd, sUpd, gUpd, rotUpd, rt_eq, hc, h1, h2, h3, h4, h6, h7, h8, h9, h10, h11,
    hp, ho, ht, Bool.and_false, Bool.and_true, Bool.true_and, Bool.false_and,
    Bool.false_eq_true, if_false, if_true, Option.some_bind]

theorem readerStep_inner_header (st : RState) (l : String)
    (ho : st.orbitals_start = false) (hl : onlyTrigger l "INNER ENERGY" = true) :
    readerStep st l = some { st with parse := true } := by
  simp +decide [onlyTrigger, triggerPhrases] at hl
  obtain ⟨hc, h1, h2, h3, h4, h5, h7, h8, h9, h10, h11⟩ := hl
  simp only [readerStep, orbitalUpd, dipoleUpd, magnitudeUpd, polarUpd, innerUpd,
    uUpd, hUpd, sUpd, gUpd, rotUpd, rt_eq, hc, h1, h2, h3, h4, h5, h7, h8, h9, h10, h11,
    ho, Bool.and_false, Bool.false_eq_true, if_false, if_true, Option.some_bind]

theorem readerStep_thermal_U (st : RState) (l t : String)
    (hp : st.parse = true) (ho : st.orbitals_start = false)
    (hl : onlyTrigger l "Total thermal energy" = true)
    (ht : (pySplit l).get? 3 = some t) :
    readerStep st l = some { st with props := setProp st.props "U" t } := by
  simp +decide [onlyTrigger, triggerPhrases] at hl
  obtain ⟨hc, h1, h2, h3, h4, h5, h6, h8, h9, h10, h11⟩ := hl
  simp only [readerStep, orbitalUpd, dipoleUpd, magnitudeUpd, polarUpd, innerUpd,
    uUpd, hUpd, sUpd, gUpd, rotUpd, rt_eq, hc, h1, h2, h3, h4, h5, h6, h8, h9, h10, h11,
    hp, ho, ht, Bool.and_false, Bool.and_true, Bool.true_and, Bool.false_eq_true,
    if_false, if_true, Option.some_bind]

theorem readerStep_enthalpy_H (st : RState) (l t : String)
    (hp : st.parse = true) (ho : st.orbitals_start = false)
    (hl : onlyTrigger l "Total Enthalpy" = true)
    (ht : (pySplit l).get? 3 = some t) :
    readerStep st l = some { st with props := setProp st.props "H" t } := by
  simp +decide [onlyTrigger, triggerPhrases] at hl
  obtain ⟨hc, h1, h2, h3, h4, h5, h6, h7, h9, h10, h11⟩ := hl
  simp only [readerStep, orbitalUpd, dipoleUpd, magnitudeUpd, polarUpd, innerUpd,
    uUpd, hUpd, sUpd, gUpd, rotUpd, rt_eq, hc, h1, h2, h3, h4, h5, h6, h7, h9, h10, h11,
    hp, ho, ht, Bool.and_false, Bool.and_true, Bool.true_and, Bool.false_eq_true,
    if_false, if_true, Option.some_bind]

theorem readerStep_entropy_S (st : RState) (l t : String)
    (hp : st.parse = true) (ho : st.orbitals_start = false)
    (hl : onlyTrigger l "Final entropy term" = true)
    (ht : (pySplit l).get? 4 = some t) :
    readerStep st l = some { st with props := setProp st.props "S" t } := by
  simp +decide [onlyTrigger, triggerPhrases] at hl
  obtain ⟨hc, h1, h2, h3, h4, h5, h6, h7, h8, h10, h11⟩ := hl
  simp only [readerStep, orbitalUpd, dipoleUpd, magnitudeUpd, polarUpd, innerUpd,
    uUpd, hUpd, sUpd, gUpd, rotUpd, rt_eq, hc, h1, h2, h3, h4, h5, h6, h7, h8, h10, h11,
    hp, ho, ht, Bool.and_false, Bool.and_true, Bool.true_and, Bool.false_eq_true,
    if_false, if_true, Option.some_bind]

theorem readerStep_gibbs_G (st : RState) (l t : String)
    (hp : st.parse = true) (ho : st.orbitals_start = false)
    (hl : onlyTrigger l "Final Gibbs" = true)
    (ht : (pySplit l).get? 5 = some t) :
    readerStep st l = some { st with props := setProp st.props "G" t } := by
  simp +decide [onlyTrigger, triggerPhrases] at hl
  obtain ⟨hc, h1, h2, h3, h4, h5, h6, h7, h8, h9, h11⟩ := hl
  simp only [readerStep, orbitalUpd, dipoleUpd, magnitudeUpd, polarUpd, innerUpd,
    uUpd, hUpd, sUpd, gUpd, rotUpd, rt_eq, hc, h1, h2, h3, h4, h5, h6, h7, h8, h9, h11,
    hp, ho, ht, Bool.and_false, Bool.and_true, Bool.true_and, Bool.false_eq_true,
    if_false, if_true, Option.some_bind]

theorem readerStep_rotational (st : RState) (l a b c : String)
    (hp : st.parse = true) (ho : st.orbitals_start = false)
    (hl : onlyTrigger l "Rotational constants in cm-1:" = true)
    (ha : (pySplit l).get? 4 = some a) (hb : (pySplit l).get? 5 = some b)
    (hc3 : (pySplit l).get? 6 = some c) :
    readerStep st l = some { st with
      props := setProp (setProp (setProp st.props "A" a) "B" b) "C" c } := by
  simp +decide [onlyTrigger, triggerPhrases] at hl
  obtain ⟨hc, h1, h2, h3, h4, h5, h6, h7, h8, h9, h10⟩ := hl
  simp only [readerStep, orbitalUpd, dipoleUpd, magnitudeUpd, polarUpd, innerUpd,
    uUpd, hUpd, sUpd, gUpd, rotUpd, rt_eq, hc, h1, h2, h3, h4, h5, h6, h7, h8, h9, h10,
    hp, ho, ha, hb, hc3, Bool.and_false, Bool.and_true, Bool.true_and, Bool.false_eq_true,
    if_false, if_true, Option.some_bind]

/-- C6: a line containing "DIPOLE MOMENT" opens the dipole section by
re-arming `parse`; while it is armed, a "Magnitude (Debye)" line stores
its token 3 under "Dipole Moment", and an "Isotropic polarizability" line
stores its token 3 under "polarizability" and closes the section
(`parse` goes back down; the other two conjuncts leave `parse` untouched).
Concretely, the report with `Magnitude (Debye) : 1.85` under that section
yields Dipole Moment = "1.85", and the later polarizability line yields
"10.50" with the final state's `parse` flag down. -/
theorem c6_dipole_section :
    (∀ (st : RState) (l : String), st.orbitals_start = false →
      onlyTrigger l "DIPOLE MOMENT" = true →
      readerStep st l = some { st with parse := true }) ∧
    (∀ (st : RState) (l t : String), st.parse = true → st.orbitals_start = false →
      onlyTrigger l "Magnitude (Debye)" = true → (pySplit l).get? 3 = some t →
      readerStep st l = some { st with props := setProp st.props "Dipole Moment" t }) ∧
    (∀ (st : RState) (l t : String), st.parse = true → st.orbitals_start = false →
      onlyTrigger l "Isotropic polarizability" = true → (pySplit l).get? 3 = some t →
      readerStep st l = some { st with
        parse := false, props := setProp st.props "polarizability" t }) ∧
    orca_reader "C" ["DIPOLE MOMENT", "Magnitude (Debye)      :      1.85",
        "Isotropic polarizability  :  10.50"]
      = some [("smiles", "C"), ("Dipole Moment", "1.85"), ("polarizability", "10.50")] ∧
    runReader (initState "C") ["DIPOLE MOMENT", "Magnitude (Debye)      :      1.85",
        "Isotropic polarizability  :  10.50"]
      = some ⟨false, false, none, none, none, none,
          [("smiles", "C"), ("Dipole Moment", "1.85"), ("polarizability", "10.50")]⟩ := by
  refine ⟨readerStep_dipole_header, readerStep_magnitude, readerStep_polar, ?_, ?_⟩
  · decide
  · decide

/-- Witness for C6: the three general conjuncts instantiated at the
claim's concrete lines. -/
theorem c6_witness :
    readerStep ⟨false, false, none, none, none, none, [("smiles", "C")]⟩ "DIPOLE MOMENT"
      = some ⟨true, false, none, none, none, none, [("smiles", "C")]⟩ ∧
    readerStep ⟨true, false, none, none, none, none, [("smiles", "C")]⟩
        "Magnitude (Debye)      :      1.85"
      = some ⟨true, false, none, none, none, none,
          setProp [("smiles", "C")] "Dipole Moment" "1.85"⟩ ∧
    readerStep ⟨true, false, none, none, none, none, [("smiles", "C")]⟩
        "Isotropic polarizability  :  10.50"
      = some ⟨false, false, none, none, none, none,
          setProp [("smiles", "C")] "polarizability" "10.50"⟩ :=
  ⟨c6_dipole_section.1 _ _ rfl (by decide),
   c6_dipole_section.2.1 _ _ "1.85" rfl rfl (by decide) (by decide),
   c6_dipole_section.2.2.1 _ _ "10.50" rfl rfl (by decide) (by decide)⟩

/-- C7: a line containing "INNER ENERGY" opens the thermochemistry section
by re-arming `parse`; while it is armed, "Total thermal energy" stores its
token 3 as U, "Total Enthalpy" token 3 as H, "Final entropy term" token 4
as S, "Final Gibbs" token 5 as G, and "Rotational constants in cm-1:"
tokens 4, 5, 6 as A, B, C.  None of the five extraction conjuncts touches
the `parse` flag, so the section remains open through all of them. -/
theorem c7_thermochemistry_section :
    (∀ (st : RState) (l : String), st.orbitals_start = false →
      onlyTrigger l "INNER ENERGY" = true →
      readerStep st l = some { st with parse := true }) ∧
    (∀ (st : RState) (l t : String), st.parse = true → st.orbitals_start = false →
      onlyTrigger l "Total thermal energy" = true → (pySplit l).get? 3 = some t →
      readerStep st l = some { st with props := setProp st.props "U" t }) ∧
    (∀ (st : RState) (l t : String), st.parse = true → st.orbitals_start = false →
      onlyTrigger l "Total Enthalpy" = true → (pySplit l).get? 3 = some t →
      readerStep st l = some { st with props := setProp st.props "H" t }) ∧
    (∀ (st : RState) (l t : String), st.parse = true → st.orbitals_start = false →
      onlyTrigger l "Final entropy term" = true → (pySplit l).get? 4 = some t →
      readerStep st l = some { st with props := setProp st.props "S" t }) ∧
    (∀ (st : RState) (l t : String), st.parse = true → st.orbitals_start = false →
      onlyTrigger l "Final Gibbs" = true → (pySplit l).get? 5 = some t →
      readerStep st l = some { st with props := setProp st.props "G" t }) ∧
    (∀ (st : RState) (l a b c : String), st.parse = true → st.orbitals_start = false →
      onlyTrigger l "Rotational constants in cm-1:" = true →
      (pySplit l).get? 4 = some a → (pySplit l).get? 5 = some b →
      (pySplit l).get? 6 = some c →
      readerStep st l = some { st with
        props := setProp (setProp (setProp st.props "A" a) "B" b) "C" c }) :=
  ⟨readerStep_inner_header, readerStep_thermal_U, readerStep_enthalpy_H,
   readerStep_entropy_S, readerStep_gibbs_G, readerStep_rotational⟩

/-- Witness for C7: each conjunct instantiated at a concrete
thermochemistry line. -/
theorem c7_witness :
    readerStep ⟨false, false, none, none, none, none, [("smiles", "C")]⟩ "INNER ENERGY"
      = some ⟨true, false, none, none, none, none, [("smiles", "C")]⟩ ∧
    readerStep ⟨true, false, none, none, none, none, [("smiles", "C")]⟩
        "Total thermal energy 0.25 Eh"
      = some ⟨true, false, none, none, none, none, setProp [("smiles", "C")] "U" "0.25"⟩ ∧
    readerStep ⟨true, false, none, none, none, none, [("smiles", "C")]⟩
        "Total Enthalpy ... -76.0 Eh"
      = some ⟨true, false, none, none, none, none, setProp [("smiles", "C")] "H" "-76.0"⟩ ∧
    readerStep ⟨true, false, none, none, none, none, [("smiles", "C")]⟩
        "Final entropy term ... 0.03 Eh"
      = some ⟨true, false, none, none, none, none, setProp [("smiles", "C")] "S" "0.03"⟩ ∧
    readerStep ⟨true, false, none, none, none, none, [("smiles", "C")]⟩
        "Final Gibbs free energy ... -76.5 Eh"
      = some ⟨true, false, none, none, none, none, setProp [("smiles", "C")] "G" "-76.5"⟩ ∧
    readerStep ⟨true, false, none, none, none, none, [("smiles", "C")]⟩
        "Rotational constants in cm-1: 1.0 2.0 3.0"
      = some ⟨true, false, none, none, none, none,
          setProp (setProp (setProp [("smiles", "C")] "A" "1.0") "B" "2.0") "C" "3.0"⟩ :=
  ⟨c7_thermochemistry_section.1 _ _ rfl (by decide),
   c7_thermochemistry_section.2.1 _ _ "0.25" rfl rfl (by decide) (by decide),
   c7_thermochemistry_section.2.2.1 _ _ "-76.0" rfl rfl (by decide) (by decide),
   c7_thermochemistry_section.2.2.2.1 _ _ "0.03" rfl rfl (by decide) (by decide),
   c7_thermochemistry_section.2.2.2.2.1 _ _ "-76.5" rfl rfl (by decide) (by decide),
   c7_thermochemistry_section.2.2.2.2.2 _ _ "1.0" "2.0" "3.0" rfl rfl (by decide)
     (by decide) (by decide) (by decide)⟩

/-- The fixed key vocabulary of the returned mapping. -/
def keyVocab : List String :=
  ["smiles", "HOMO (Eh)", "HOMO (eV)", "LUMO (Eh)", "LUMO (eV)", "Dipole Moment",
   "polarizability", "U", "H", "S", "G", "A", "B", "C"]

/-- Invariant of the property dictionary throughout the scan: the
identifier entry sits (untouched) at the front, and every key belongs to
the fixed vocabulary. -/
def PropsInv (s : String) (P : List (String × String)) : Prop :=
  P.head? = some ("smiles", s) ∧ ∀ kv ∈ P, kv.1 ∈ keyVocab

theorem setProp_inv (s : String) (P : List (String × String)) (k v : String)
    (hk : k ∈ keyVocab) (hne : (("smiles" : String) == k) = false)
    (h : PropsInv s P) : PropsInv s (setProp P k v) := by
  obtain ⟨hh, hm⟩ := h
  constructor
  · rw [setProp]
    split
    · cases P with
      | nil => simp at hh
      | cons kv0 rest =>
        simp only [List.head?_cons, Option.some.injEq] at hh
        subst hh
        simp only [List.map_cons, List.head?_cons, Option.some.injEq]
        rw [if_neg (by simp_all)]
    · cases P with
      | nil => simp at hh
      | cons kv0 rest => simpa using hh
  · intro kv hkv
    rw [setProp] at hkv
    split at hkv
    · obtain ⟨kv0, hkv0, hfkv⟩ := List.mem_map.mp hkv
      by_cases hb : kv0.1 == k
      · rw [if_pos hb] at hfkv; rw [← hfkv]; exact hk
      · rw [if_neg hb] at hfkv; rw [← hfkv]; exact hm kv0 hkv0
    · rcases List.mem_append.mp hkv with hin | hnew
      · exact hm kv hin
      · simp only [List.mem_singleton] at hnew; rw [hnew]; exact hk

theorem setOrbProps_inv (s : String) (P : List (String × String)) (a b c d : String)
    (h : PropsInv s P) : PropsInv s (setOrbProps P a b c d) := by
  rw [setOrbProps]
  apply setProp_inv _ _ _ _ (by decide) (by decide)
  apply setProp_inv _ _ _ _ (by decide) (by decide)
  apply setProp_inv _ _ _ _ (by decide) (by decide)
  exact setProp_inv _ _ _ _ (by decide) (by decide) h

theorem dipoleUpd_props (st : RState) (l : String) : (dipoleUpd st l).props = st.props := by
  rw [dipoleUpd]; split <;> rfl

theorem innerUpd_props (st : RState) (l : String) : (innerUpd st l).props = st.props := by
  rw [innerUpd]; split <;> rfl
theorem magnitudeUpd_inv (st st2 : RState) (l : String) (s : String)
    (h : magnitudeUpd st l = some st2) (hi : PropsInv s st.props) : PropsInv s st2.props := by
  rw [magnitudeUpd] at h
  split at h
  · split at h
    · injection h with h2; subst h2
      exact setProp_inv _ _ _ _ (by decide) (by decide) hi
    · exact absurd h (by simp)
  · injection h with h2; subst h2; exact hi

theorem orbitalUpd_inv (st st2 : RState) (l : String) (s : String)
    (h : orbitalUpd st l = some st2) (hi : PropsInv s st.props) : PropsInv s st2.props := by
  rw [orbitalUpd] at h
  split at h
  · simp only [] at h
    split at h
    · exact absurd h (by simp)
    · split at h
      · exact absurd h (by simp)
      · split at h
        · split at h
          · injection h with h2; subst h2
            exact setOrbProps_inv _ _ _ _ _ _ (by split <;> exact hi)
          · exact absurd h (by simp)
        · exact absurd h (by simp)
  · injection h with h2; subst h2; exact hi

theorem polarUpd_inv (st st2 : RState) (l : String) (s : String)
    (h : polarUpd st l = some st2) (hi : PropsInv s st.props) : PropsInv s st2.props := by
  rw [polarUpd] at h
  split at h
  · split at h
    · injection h with h2; subst h2
      exact setProp_inv _ _ _ _ (by decide) (by decide) hi
    · exact absurd h (by simp)
  · injection h with h2; subst h2; exact hi

theorem uUpd_inv (st st2 : RState) (l : String) (s : String)
    (h : uUpd st l = some st2) (hi : PropsInv s st.props) : PropsInv s st2.props := by
  rw [uUpd] at h
  split at h
  · split at h
    · injection h with h2; subst h2
      exact setProp_inv _ _ _ _ (by decide) (by decide) hi
    · exact absurd h (by simp)
  · injection h with h2; subst h2; exact hi

theorem hUpd_inv (st st2 : RState) (l : String) (s : String)
    (h : hUpd st l = some st2) (hi : PropsInv s st.props) : PropsInv s st2.props := by
  rw [hUpd] at h
  split at h
  · split at h
    · injection h with h2; subst h2
      exact setProp_inv _ _ _ _ (by decide) (by decide) hi
    · exact absurd h (by simp)
  · injection h with h2; subst h2; exact hi

theorem sUpd_inv (st st2 : RState) (l : String) (s : String)
    (h : sUpd st l = some st2) (hi : PropsInv s st.props) : PropsInv s st2.props := by
  rw [sUpd] at h
  split at h
  · split at h
    · injection h with h2; subst h2
      exact setProp_inv _ _ _ _ (by decide) (by decide) hi
    · exact absurd h (by simp)
  · injection h with h2; subst h2; exact hi

theorem gUpd_inv (st st2 : RState) (l : String) (s : String)
    (h : gUpd st l = some st2) (hi : PropsInv s st.props) : PropsInv s st2.props := by
  rw [gUpd] at h
  split at h
  · split at h
    · injection h with h2; subst h2
      exact setProp_inv _ _ _ _ (by decide) (by decide) hi
    · exact absurd h (by simp)
  · injection h with h2; subst h2; exact hi

theorem rotUpd_inv (st st2 : RState) (l : String) (s : String)
    (h : rotUpd st l = some st2) (hi : PropsInv s st.props) : PropsInv s st2.props := by
  rw [rotUpd] at h
  split at h
  · split at h
    · injection h with h2; subst h2
      apply setProp_inv _ _ _ _ (by decide) (by decide)
      apply setProp_inv _ _ _ _ (by decide) (by decide)
      exact setProp_inv _ _ _ _ (by decide) (by decide) hi
    · exact absurd h (by simp)
  · injection h with h2; subst h2; exact hi

theorem readerStep_inv (st st2 : RState) (l : String) (s : String)
    (h : readerStep st l = some st2) (hi : PropsInv s st.props) : PropsInv s st2.props := by
  rw [readerStep] at h
  split at h
  · injection h with h2; subst h2; exact hi
  · split at h
    · injection h with h2; subst h2; exact hi
    · obtain ⟨sa, ha, h⟩ := Option.bind_eq_some.mp h
      obtain ⟨sb, hb, h⟩ := Option.bind_eq_some.mp h
      obtain ⟨sc, hc, h⟩ := Option.bind_eq_some.mp h
      obtain ⟨sd, hd, h⟩ := Option.bind_eq_some.mp h
      obtain ⟨se, he, h⟩ := Option.bind_eq_some.mp h
      obtain ⟨sf, hf, h⟩ := Option.bind_eq_some.mp h
      obtain ⟨sg, hg, h⟩ := Option.bind_eq_some.mp h
      have ia := orbitalUpd_inv st sa l s ha hi
      have ib : PropsInv s sb.props := by
        have := magnitudeUpd_inv (dipoleUpd sa l) sb l s hb
        rw [dipoleUpd_props] at this
        exact this ia
      have ic := polarUpd_inv sb sc l s hc ib
      have id2 : PropsInv s sd.props := by
        have := uUpd_inv (innerUpd sc l) sd l s hd
        rw [innerUpd_props] at this
        exact this ic
      have ie := hUpd_inv sd se l s he id2
      have if2 := sUpd_inv se sf l s hf ie
      have ig := gUpd_inv sf sg l s hg if2
      exact rotUpd_inv sg st2 l s h ig

theorem runReader_inv (lines : List String) :
    ∀ (st st2 : RState) (s : String), runReader st lines = some st2 →
    PropsInv s st.props → PropsInv s st2.props := by
  induction lines with
  | nil =>
    intro st st2 s h hi
    rw [runReader_nil] at h
    injection h with h2; subst h2; exact hi
  | cons l ls ih =>
    intro st st2 s h hi
    rw [runReader_cons] at h
    obtain ⟨sa, ha, h⟩ := Option.bind_eq_some.mp h
    exact ih sa st2 s h (readerStep_inv st sa l s ha hi)

theorem getProp_of_head (P : List (String × String)) (s : String)
    (h : P.head? = some ("smiles", s)) : getProp P "smiles" = some s := by
  cases P with
  | nil => simp at h
  | cons kv rest =>
    simp only [List.head?_cons, Option.some.injEq] at h
    subst h
    rfl

/-- C9: whenever `orca_reader` returns normally, the mapping binds the key
"smiles" to the exact identifier that was passed in, and every key of the
mapping belongs to the fixed fourteen-key vocabulary (the eleven properties
under their keys, plus "smiles") — no other key is ever produced, for any
report content. -/
theorem c9_smiles_key_and_vocabulary (smiles : String) (lines : List String)
    (P : List (String × String)) (h : orca_reader smiles lines = some P) :
    getProp P "smiles" = some smiles ∧ ∀ kv ∈ P, kv.1 ∈ keyVocab := by
  rw [orca_reader] at h
  obtain ⟨st, hrun, hP⟩ := Option.map_eq_some'.mp h
  subst hP
  have hinit : PropsInv smiles (initState smiles).props := by
    constructor
    · rfl
    · intro kv hkv
      simp only [initState, List.mem_singleton] at hkv
      rw [hkv]
      show ("smiles" : String) ∈ keyVocab
      decide
  have := runReader_inv lines (initState smiles) st smiles hrun hinit
  exact ⟨getProp_of_head _ _ this.1, this.2⟩

/-- Witness for C9 at the empty report. -/
theorem c9_witness :
    getProp [("smiles", "C")] "smiles" = some "C" ∧
    ∀ kv ∈ [(("smiles" : String), ("C" : String))], kv.1 ∈ keyVocab :=
  c9_smiles_key_and_vocabulary "C" [] [("smiles", "C")] rfl

theorem doneList_mem (reports : Nat → List String) :
    ∀ (ms : List String) (nb : Nat) (e : Nat × String), e ∈ doneList reports nb ms →
    nb ≤ e.1 ∧ e.1 < nb + ms.length ∧ ms.get? (e.1 - nb) = some e.2 := by
  intro ms
  induction ms with
  | nil => intro nb e he; simp [doneList] at he
  | cons m rest ih =>
    intro nb e he
    cases hr : orca_reader m (reports nb) with
    | some props =>
      rw [doneList, hr] at he
      rcases List.mem_append.mp he with hh | ht
      · simp only [List.mem_singleton] at hh
        subst hh
        refine ⟨Nat.le_refl _, by simp, ?_⟩
        simp
      · obtain ⟨h1, h2, h3⟩ := ih (nb + 1) e ht
        refine ⟨by omega, by simp; omega, ?_⟩
        have hk : e.1 - nb = (e.1 - (nb + 1)) + 1 := by omega
        rw [hk, List.get?_cons_succ]
        exact h3
    | none =>
      rw [doneList, hr] at he
      simp only [List.nil_append] at he
      obtain ⟨h1, h2, h3⟩ := ih (nb + 1) e he
      refine ⟨by omega, by simp; omega, ?_⟩
      have hk : e.1 - nb = (e.1 - (nb + 1)) + 1 := by omega
      rw [hk, List.get?_cons_succ]
      exact h3

theorem undoneList_mem (reports : Nat → List String) :
    ∀ (ms : List String) (nb : Nat) (e : Nat × String), e ∈ undoneList reports nb ms →
    nb ≤ e.1 ∧ e.1 < nb + ms.length ∧ ms.get? (e.1 - nb) = some e.2 := by
  intro ms
  induction ms with
  | nil => intro nb e he; simp [undoneList] at he
  | cons m rest ih =>
    intro nb e he
    cases hr : orca_reader m (reports nb) with
    | some props =>
      rw [undoneList, hr] at he
      simp only [List.nil_append] at he
      obtain ⟨h1, h2, h3⟩ := ih (nb + 1) e he
      refine ⟨by omega, by simp; omega, ?_⟩
      have hk : e.1 - nb = (e.1 - (nb + 1)) + 1 := by omega
      rw [hk, List.get?_cons_succ]
      exact h3
    | none =>
      rw [undoneList, hr] at he
      rcases List.mem_append.mp he with hh | ht
      · simp only [List.mem_singleton] at hh
        subst hh
        refine ⟨Nat.le_refl _, by simp, ?_⟩
        simp
      · obtain ⟨h1, h2, h3⟩ := ih (nb + 1) e ht
        refine ⟨by omega, by simp; omega, ?_⟩
        have hk : e.1 - nb = (e.1 - (nb + 1)) + 1 := by omega
        rw [hk, List.get?_cons_succ]
        exact h3

theorem logs_length (reports : Nat → List String) :
    ∀ (ms : List String) (nb : Nat),
    (doneList reports nb ms).length + (undoneList reports nb ms).length = ms.length := by
  intro ms
  induction ms with
  | nil => intro nb; rfl
  | cons m rest ih =>
    intro nb
    have h2 := ih (nb + 1)
    cases hr : orca_reader m (reports nb) with
    | some props => simp [doneList, undoneList, hr]; omega
    | none => simp [doneList, undoneList, hr]; omega

theorem logs_cover (reports : Nat → List String) :
    ∀ (ms : List String) (nb h : Nat), nb ≤ h → h < nb + ms.length →
    (∃ e ∈ doneList reports nb ms, e.1 = h) ∨ (∃ e ∈ undoneList reports nb ms, e.1 = h) := by
  intro ms
  induction ms with
  | nil => intro nb h h1 h2; simp at h2; omega
  | cons m rest ih =>
    intro nb h h1 h2
    by_cases hh : h = nb
    · subst hh
      cases hr : orca_reader m (reports h) with
      | some props =>
        left
        exact ⟨(h, m), by rw [doneList, hr]; exact List.mem_append_left _ (by simp), rfl⟩
      | none =>
        right
        exact ⟨(h, m), by rw [undoneList, hr]; exact List.mem_append_left _ (by simp), rfl⟩
    · have h3 : nb + 1 ≤ h := by omega
      have h4 : h < nb + 1 + rest.length := by simp at h2; omega
      rcases ih (nb + 1) h h3 h4 with ⟨e, he, heq⟩ | ⟨e, he, heq⟩
      · left
        refine ⟨e, ?_, heq⟩
        cases hr : orca_reader m (reports nb) with
        | some props => rw [doneList, hr]; exact List.mem_append_right _ he
        | none => rw [doneList, hr]; exact List.mem_append_right _ he
      · right
        refine ⟨e, ?_, heq⟩
        cases hr : orca_reader m (reports nb) with
        | some props => rw [undoneList, hr]; exact List.mem_append_right _ he
        | none => rw [undoneList, hr]; exact List.mem_append_right _ he

theorem logs_disjoint (reports : Nat → List String) :
    ∀ (ms : List String) (nb h : Nat),
    (∃ e ∈ doneList reports nb ms, e.1 = h) → (∃ e ∈ undoneList reports nb ms, e.1 = h) →
    False := by
  intro ms
  induction ms with
  | nil => intro nb h hd _; obtain ⟨e, he, _⟩ := hd; simp [doneList] at he
  | cons m rest ih =>
    intro nb h hd hu
    obtain ⟨e1, he1, hq1⟩ := hd
    obtain ⟨e2, he2, hq2⟩ := hu
    cases hr : orca_reader m (reports nb) with
    | some props =>
      rw [doneList, hr] at he1
      rw [undoneList, hr] at he2
      simp only [List.nil_append] at he2
      have hb2 := (undoneList_mem reports rest (nb + 1) e2 he2).1
      rcases List.mem_append.mp he1 with hh | ht
      · simp only [List.mem_singleton] at hh
        subst hh
        simp only at hq1
        omega
      · exact ih (nb + 1) h ⟨e1, ht, hq1⟩ ⟨e2, he2, hq2⟩
    | none =>
      rw [doneList, hr] at he1
      rw [undoneList, hr] at he2
      simp only [List.nil_append] at he1
      have hb1 := (doneList_mem reports rest (nb + 1) e1 he1).1
      rcases List.mem_append.mp he2 with hh | ht
      · simp only [List.mem_singleton] at hh
        subst hh
        simp only at hq2
        omega
      · exact ih (nb + 1) h ⟨e1, he1, hq1⟩ ⟨e2, ht, hq2⟩

/-- C4: over a batch of N molecules, every Job Handle 0..N-1 is appended,
paired with its Molecule Identifier, to exactly one of the two logs: each
log entry carries the identifier at its handle's position, the two logs
are disjoint in Job Handle, and together they hold exactly N entries. -/
theorem c4_logs_partition (molecules : List String) (reports : Nat → List String) (save : Bool) :
    ((orcanize_many molecules reports save).done.length
      + (orcanize_many molecules reports save).undone.length = molecules.length) ∧
    (∀ e ∈ (orcanize_many molecules reports save).done, molecules.get? e.1 = some e.2) ∧
    (∀ e ∈ (orcanize_many molecules reports save).undone, molecules.get? e.1 = some e.2) ∧
    (∀ h, h < molecules.length →
      (∃ e ∈ (orcanize_many molecules reports save).done, e.1 = h) ∨
      (∃ e ∈ (orcanize_many molecules reports save).undone, e.1 = h)) ∧
    (∀ h, (∃ e ∈ (orcanize_many molecules reports save).done, e.1 = h) →
      ¬ (∃ e ∈ (orcanize_many molecules reports save).undone, e.1 = h)) := by
  rw [orcanize_many_spec]
  refine ⟨logs_length reports molecules 0, ?_, ?_, ?_, ?_⟩
  · intro e he
    have := (doneList_mem reports molecules 0 e he).2.2
    simpa using this
  · intro e he
    have := (undoneList_mem reports molecules 0 e he).2.2
    simpa using this
  · intro h hh
    exact logs_cover reports molecules 0 h (Nat.zero_le _) (by omega)
  · intro h hd hu
    exact logs_disjoint reports molecules 0 h hd hu

/-- Witness for C4 at a concrete two-molecule batch whose second report
fails to parse. -/
theorem c4_witness :
    ((orcanize_many ["a", "b"] (fun nb => if nb = 1 then ["ORBITAL ENERGIES", "E(Eh)", "xyz"] else []) true).done.length
      + (orcanize_many ["a", "b"] (fun nb => if nb = 1 then ["ORBITAL ENERGIES", "E(Eh)", "xyz"] else []) true).undone.length = 2) ∧
    ((∃ e ∈ (orcanize_many ["a", "b"] (fun nb => if nb = 1 then ["ORBITAL ENERGIES", "E(Eh)", "xyz"] else []) true).done, e.1 = 0) ∨
      (∃ e ∈ (orcanize_many ["a", "b"] (fun nb => if nb = 1 then ["ORBITAL ENERGIES", "E(Eh)", "xyz"] else []) true).undone, e.1 = 0)) ∧
    ¬ (∃ e ∈ (orcanize_many ["a", "b"] (fun nb => if nb = 1 then ["ORBITAL ENERGIES", "E(Eh)", "xyz"] else []) true).done, e.1 = 1) := by
  have h := c4_logs_partition ["a", "b"]
    (fun nb => if nb = 1 then ["ORBITAL ENERGIES", "E(Eh)", "xyz"] else []) true
  refine ⟨h.1, h.2.2.2.1 0 (by decide), ?_⟩
  intro hd
  exact h.2.2.2.2 1 hd (by decide)

theorem tableList_length (reports : Nat → List String) :
    ∀ (ms : List String) (nb : Nat), (tableList reports nb ms).length = ms.length := by
  intro ms
  induction ms with
  | nil => intro nb; rfl
  | cons m rest ih => intro nb; simp [tableList, ih (nb + 1)]

theorem tableList_get (reports : Nat → List String) :
    ∀ (ms : List String) (nb i : Nat) (smiles : String), ms.get? i = some smiles →
    (tableList reports nb ms).get? i = some (orca_reader smiles (reports (nb + i))) := by
  intro ms
  induction ms with
  | nil => intro nb i smiles h; simp at h
  | cons m rest ih =>
    intro nb i smiles h
    cases i with
    | zero =>
      simp only [List.get?_cons_zero, Option.some.injEq] at h
      subst h
      simp [tableList]
    | succ j =>
      rw [List.get?_cons_succ] at h
      rw [tableList, List.get?_cons_succ, ih (nb + 1) j smiles h]
      have : nb + 1 + j = nb + (j + 1) := by omega
      rw [this]

/-- C3 counterexample: in the claim's own scenario — three molecules where
the second external run leaves an empty report — the second molecule does
not fail at all: the empty report parses successfully into an
identifier-only mapping, so the table has a row for it (three rows in
total, not two), `undone.log` stays empty and `1 b` goes to `done.log`.
Moreover a molecule whose report genuinely fails to parse still
contributes a row: `orcanize` returns `None` and
`outdata.append(pd.DataFrame(None, index=[0]))` appends an all-missing row
(the final conjunct, where the second report raises on a short orbital
row). -/
theorem c3_counterexample :
    (orcanize_many ["a", "b", "c"]
        (fun nb => if nb = 1 then [] else
          ["ORBITAL ENERGIES", "E(Eh)", "0 2.0000 -0.123 -3.35", "1 0.0000 0.045 1.22"])
        true).table.length = 3 ∧
    (orcanize_many ["a", "b", "c"]
        (fun nb => if nb = 1 then [] else
          ["ORBITAL ENERGIES", "E(Eh)", "0 2.0000 -0.123 -3.35", "1 0.0000 0.045 1.22"])
        true).table.get? 1 = some (some [("smiles", "b")]) ∧
    (orcanize_many ["a", "b", "c"]
        (fun nb => if nb = 1 then [] else
          ["ORBITAL ENERGIES", "E(Eh)", "0 2.0000 -0.123 -3.35", "1 0.0000 0.045 1.22"])
        true).undone = [] ∧
    (1, "b") ∈ (orcanize_many ["a", "b", "c"]
        (fun nb => if nb = 1 then [] else
          ["ORBITAL ENERGIES", "E(Eh)", "0 2.0000 -0.123 -3.35", "1 0.0000 0.045 1.22"])
        true).done ∧
    (orcanize_many ["a", "b"]
        (fun nb => if nb = 1 then ["ORBITAL ENERGIES", "E(Eh)", "xyz"] else []) true).table
      = [some [("smiles", "a")], none] := by
  refine ⟨?_, ?_, ?_, ?_, ?_⟩
  · decide
  · decide
  · decide
  · decide
  · decide

/-- C3 amended: the Result Table receives exactly one row per molecule,
success or not: the parsed Property Mapping when `orca_reader` raised no
exception (an empty report counts as success and yields an identifier-only
row, logged to `done.log`), and an all-missing row when it raised.  When
`save` is enabled the table is persisted after every iteration — in
particular after each success. -/
theorem c3_amended_one_row_per_molecule (molecules : List String)
    (reports : Nat → List String) (save : Bool) :
    (orcanize_many molecules reports save).table.length = molecules.length ∧
    (∀ (i : Nat) (smiles : String), molecules.get? i = some smiles →
      (orcanize_many molecules reports save).table.get? i
        = some (orca_reader smiles (reports i))) ∧
    (save = true → (orcanize_many molecules reports save).saves = molecules.length) := by
  rw [orcanize_many_spec]
  refine ⟨tableList_length reports molecules 0, ?_, ?_⟩
  · intro i smiles h
    have := tableList_get reports molecules 0 i smiles h
    simpa using this
  · intro hs
    simp [hs]

/-- Witness for the amended C3 at the empty-report scenario. -/
theorem c3_amended_witness :
    (orcanize_many ["a", "b", "c"] (fun nb => if nb = 1 then [] else
        ["ORBITAL ENERGIES", "E(Eh)", "0 2.0000 -0.123 -3.35", "1 0.0000 0.045 1.22"])
      true).table.length = 3 ∧
    (orcanize_many ["a", "b", "c"] (fun nb => if nb = 1 then [] else
        ["ORBITAL ENERGIES", "E(Eh)", "0 2.0000 -0.123 -3.35", "1 0.0000 0.045 1.22"])
      true).table.get? 1
      = some (orca_reader "b" ((fun nb => if nb = 1 then [] else
          ["ORBITAL ENERGIES", "E(Eh)", "0 2.0000 -0.123 -3.35", "1 0.0000 0.045 1.22"]) 1)) := by
  have h := c3_amended_one_row_per_molecule ["a", "b", "c"]
    (fun nb => if nb = 1 then [] else
      ["ORBITAL ENERGIES", "E(Eh)", "0 2.0000 -0.123 -3.35", "1 0.0000 0.045 1.22"]) true
  exact ⟨h.1, h.2.1 1 "b" (by decide)⟩

theorem string_append_lastChar (a suf : String) (c : Char)
    (h : suf.data.getLast? = some c) : (a ++ suf).data.getLast? = some c := by
  rw [String.data_append, List.getLast?_append_of_ne_nil]
  · exact h
  · intro hnil
    rw [hnil] at h
    simp at h

theorem inp_ne_out (a b : String) : a ++ ".inp" ≠ b ++ ".out" := by
  intro h
  have h1 := string_append_lastChar a ".inp" 'p' (by decide)
  rw [h] at h1
  have h2 := string_append_lastChar b ".out" 't' (by decide)
  rw [h1] at h2
  exact absurd h2 (by decide)

theorem out_ne_orca (b : String) : b ++ ".out" ≠ "orca" := by
  intro h
  have h1 := string_append_lastChar b ".out" 't' (by decide)
  rw [h] at h1
  exact absurd h1 (by decide)

theorem out_ne_gt (b : String) : b ++ ".out" ≠ ">" := by
  intro h
  have h1 := string_append_lastChar b ".out" 't' (by decide)
  rw [h] at h1
  exact absurd h1 (by decide)

theorem out_ne_inp (a b : String) : a ++ ".out" ≠ b ++ ".inp" := by
  intro h
  exact inp_ne_out b a h.symm

theorem append_right_inj (a b suf : String) (h : a ++ suf = b ++ suf) : a = b := by
  have h2 : a.data ++ suf.data = b.data ++ suf.data := by
    rw [← String.data_append, ← String.data_append, h]
  exact congrArg String.mk (List.append_cancel_right h2)

/-- C5 counterexample: at smiles = "0", nb = 0 the names coincide — the
input file the invocation passes to the external program is exactly the
file the Builder wrote, and the invocation names exactly the report file
the Parser reads, so the claim's "never" is false at this input. -/
theorem c5_counterexample :
    orca_generator_file 0 = "0.inp" ∧
    (orcaArgs "0").get? 1 = some (orca_generator_file 0) ∧
    orca_reader_file 0 = "0.out" ∧
    (orcaArgs "0").get? 3 = some (orca_reader_file 0) := by
  refine ⟨?_, ?_, ?_, ?_⟩
  · decide
  · decide
  · decide
  · decide

/-- C5 amended: the Input Builder writes `{nb}.inp`, the Report Parser
reads `{nb}.out`, while the invocation uses the Molecule Identifier as
stem (`{smiles}.inp`, `{smiles}.out`); whenever the identifier is not the
decimal rendering of the Job Handle — the only coincidence possible — the
file the external program is asked to read differs from the file the
Builder wrote, and the file the Parser reads is not named anywhere in the
invocation. -/
theorem c5_filename_stem_mismatch (smiles : String) (nb : Nat)
    (h : smiles ≠ toString nb) :
    orca_generator_file nb = toString nb ++ ".inp" ∧
    orca_reader_file nb = toString nb ++ ".out" ∧
    orcaArgs smiles = [ORCA_EXECUTABLE, smiles ++ ".inp", ">", smiles ++ ".out"] ∧
    smiles ++ ".inp" ≠ orca_generator_file nb ∧
    orca_reader_file nb ∉ orcaArgs smiles := by
  refine ⟨rfl, rfl, rfl, ?_, ?_⟩
  · intro he
    exact h (append_right_inj _ _ ".inp" he)
  · intro hmem
    rw [orcaArgs, ORCA_EXECUTABLE, orca_reader_file] at hmem
    rcases List.mem_cons.mp hmem with h1 | hmem
    · exact out_ne_orca _ h1
    rcases List.mem_cons.mp hmem with h2 | hmem
    · exact out_ne_inp _ _ h2
    rcases List.mem_cons.mp hmem with h3 | hmem
    · exact out_ne_gt _ h3
    rcases List.mem_cons.mp hmem with h4 | hmem
    · exact h (append_right_inj _ _ ".out" h4).symm
    · simp at hmem

/-- Witness for the amended C5 at smiles = "C", nb = 0. -/
theorem c5_witness :
    orca_generator_file 0 = "0" ++ ".inp" ∧
    orca_reader_file 0 = "0" ++ ".out" ∧
    orcaArgs "C" = [ORCA_EXECUTABLE, "C" ++ ".inp", ">", "C" ++ ".out"] ∧
    "C" ++ ".inp" ≠ orca_generator_file 0 ∧
    orca_reader_file 0 ∉ orcaArgs "C" := by
  have h := c5_filename_stem_mismatch "C" 0 (by decide)
  exact ⟨h.1, h.2.1, h.2.2.1, h.2.2.2.1, h.2.2.2.2⟩

/-- Test for the runProc constructor (used to isolate the invocation in a
trace). -/
def isRunProc : Ev → Bool
  | Ev.runProc _ => true
  | _ => false

/-- C10: `orcanize` performs exactly one external invocation, whose argv
is the four separate strings "orca", "{smiles}.inp", ">", "{smiles}.out" —
the list form of `subprocess.run`, hence no shell, so ">" reaches the
program as a literal argument — and the orchestrator itself never writes
any `{smiles}.out` file: its only file write is the input file
`{nb}.inp`. -/
theorem c10_literal_argv_no_redirection (smiles : String) (nb : Nat)
    (reports : Nat → List String) :
    (orcanize reports smiles nb).events.filter isRunProc
      = [Ev.runProc [ORCA_EXECUTABLE, smiles ++ ".inp", ">", smiles ++ ".out"]] ∧
    (orcaArgs smiles).length = 4 ∧
    (orcaArgs smiles).get? 2 = some ">" ∧
    (∀ name, Ev.writeInput name ∈ (orcanize reports smiles nb).events →
      name = toString nb ++ ".inp" ∧ name ≠ smiles ++ ".out") := by
  refine ⟨?_, rfl, rfl, ?_⟩
  · rw [orcanize]
    cases orca_reader smiles (reports nb) with
    | some props => rfl
    | none => rfl
  · intro name hmem
    have hn : name = toString nb ++ ".inp" := by
      cases hr : orca_reader smiles (reports nb) with
      | some props =>
        simp [orcanize, hr, orca_generator_file, orcaArgs, orca_reader_file] at hmem
        exact hmem
      | none =>
        simp [orcanize, hr, orca_generator_file, orcaArgs, orca_reader_file] at hmem
        exact hmem
    exact ⟨hn, by rw [hn]; exact inp_ne_out _ _⟩

/-- Witness for C10 at smiles = "C", nb = 0 and an empty environment. -/
theorem c10_witness :
    (orcanize (fun _ => []) "C" 0).events.filter isRunProc
      = [Ev.runProc [ORCA_EXECUTABLE, "C" ++ ".inp", ">", "C" ++ ".out"]] ∧
    (orcaArgs "C").get? 2 = some ">" ∧
    ("0.inp" = toString 0 ++ ".inp" ∧ "0.inp" ≠ "C" ++ ".out") := by
  have h := c10_literal_argv_no_redirection "C" 0 (fun _ => [])
  exact ⟨h.1, h.2.2.1, h.2.2.2 "0.inp" (by decide)⟩
